import Mathlib

/-!
Shallow embedding of the moltbook-gpt decision-and-safety pipeline:
the policy engine (src/policy/engine.ts), the durable memory store
(src/memory/store.ts), the decision schema (zod `DecisionSchema`), and the
scheduler's decision pipeline and tick timer (src/scheduler/loop.ts).

Conventions of the embedding:
- JS timestamps (`Date.now()`) are `Int` milliseconds.
- JS numbers used for `confidence` and thresholds are `ℚ` (they are compared,
  never rounded, in the embedded code paths).
- A JS string-valued optional field is `Option String`; JS truthiness of such
  a field (`if (x)`) is `strTruthy` (absent or empty string is falsy), while
  the nullish operator `??` only tests absence.
- `String(h)` of a 32-bit integer hash is injective, so hashes are kept as
  `Int` and compared as integers.
- `charCodeAt` is modelled as `Char.toNat` (identical on the Basic
  Multilingual Plane), `\s` as `Char.isWhitespace`, `toLowerCase` as
  `Char.toLower`.
-/

namespace MoltbookGPT

/-- JS truthiness of an optional string field: absent and empty are falsy. -/
def strTruthy : Option String → Bool
  | none => false
  | some s => s ≠ ""

/-- JS `| 0`: wrap an exact integer to a signed 32-bit value. -/
def wrap32 (n : Int) : Int := (n + 2 ^ 31) % 2 ^ 32 - 2 ^ 31

/-- One step of the rolling hash `h = (h * 31 + code) | 0`. -/
def hashStep (h : Int) (c : Char) : Int := wrap32 (h * 31 + c.toNat)

/-- Collapse each maximal run of whitespace to a single space
(JS `replace(/\s+/g, " ")` on the lowercased text). -/
def collapseWs : List Char → List Char
  | [] => []
  | [c] => [if c.isWhitespace then ' ' else c]
  | c :: d :: rest =>
    if c.isWhitespace && d.isWhitespace then collapseWs (d :: rest)
    else (if c.isWhitespace then ' ' else c) :: collapseWs (d :: rest)

/-- JS `trim()` after collapsing: strip leading/trailing spaces. -/
def trimSpaces (l : List Char) : List Char :=
  ((l.dropWhile (· = ' ')).reverse.dropWhile (· = ' ')).reverse

/-- `s.toLowerCase().replace(/\s+/g, " ").trim()` from `simpleHash` /
`contentHash`. -/
def normalizeStr (s : String) : List Char :=
  trimSpaces (collapseWs (s.data.map Char.toLower))

/-- Rolling hash of an already-normalized character list. -/
def hashChars (l : List Char) : Int := l.foldl hashStep 0

/-- `PolicyEngine.simpleHash`: normalize then rolling-hash. -/
def simpleHash (s : String) : Int := hashChars (normalizeStr s)

/-- Decision `action` enum of the zod schema. -/
inductive DecisionAction
  | post | comment | vote | ignore
  deriving DecidableEq, Repr

/-- Vote direction enum. -/
inductive VoteDirection
  | up | down
  deriving DecidableEq, Repr

/-- A validated `Decision` (zod `DecisionSchema` output). -/
structure Decision where
  action : DecisionAction
  targetId : Option String := none
  title : Option String := none
  content : Option String := none
  voteDirection : Option VoteDirection := none
  confidence : ℚ
  deriving DecidableEq, Repr

/-- `PolicyConfig` from src/policy/engine.ts. -/
structure PolicyConfig where
  maxPostsPerHour : ℕ
  maxCommentsPerThread : ℕ
  confidenceThreshold : ℚ
  maxContentLength : ℕ
  cooldownMinutesPerSubmolt : ℕ
  deriving DecidableEq, Repr

/-- `DEFAULT_CONFIG` from src/policy/engine.ts. -/
def DEFAULT_CONFIG : PolicyConfig :=
  { maxPostsPerHour := 5
    maxCommentsPerThread := 3
    confidenceThreshold := mkRat 6 10
    maxContentLength := 2000
    cooldownMinutesPerSubmolt := 10 }

/-- `PolicyVerdict`. -/
inductive PolicyVerdict
  | allowed
  | notAllowed (reason : String)
  deriving DecidableEq, Repr

/-- The `PolicyEngine`'s private mutable fields. Maps are association lists
with JS `Map` insertion semantics. -/
structure PolicyState where
  postsInLastHour : List Int := []
  commentsByThread : List (String × ℕ) := []
  lastPostBySubmolt : List (String × Int) := []
  recentContentHashes : List Int := []
  deriving DecidableEq, Repr

/-- `maxRecentHashes` field of `PolicyEngine`. -/
def maxRecentHashes : ℕ := 50

/-- JS `Map.get`. -/
def alGet {β : Type} (m : List (String × β)) (k : String) : Option β :=
  match m with
  | [] => none
  | (k0, v) :: rest => if k0 = k then some v else alGet rest k

/-- JS `Map.set`: replace in place if the key exists, else append. -/
def alSet {β : Type} (m : List (String × β)) (k : String) (v : β) :
    List (String × β) :=
  match m with
  | [] => [(k, v)]
  | (k0, v0) :: rest =>
    if k0 = k then (k0, v) :: rest else (k0, v0) :: alSet rest k v

/-- Integer list membership as the code's `Array.includes`. -/
def intMem (h : Int) : List Int → Bool
  | [] => false
  | x :: rest => if x = h then true else intMem h rest

/-- `PolicyEngine.isRepetition`. -/
def isRepetition (st : PolicyState) (content : String) : Bool :=
  intMem (simpleHash content) st.recentContentHashes

/-- `PolicyEngine.addContentHash`: push, evict the oldest beyond 50. -/
def addContentHash (st : PolicyState) (content : String) : PolicyState :=
  let hashes := st.recentContentHashes ++ [simpleHash content]
  { st with recentContentHashes :=
      if maxRecentHashes < hashes.length then hashes.drop 1 else hashes }

/-- `actionSource` tag passed to validate (unused by its body). -/
inductive ActionSource
  | post | comment | vote | ignore
  deriving DecidableEq, Repr

/-- The `context` argument of `PolicyEngine.validate`. -/
structure ValidateContext where
  submoltId : Option String := none
  threadId : Option String := none
  actionSource : ActionSource
  deriving DecidableEq, Repr

/-- `PolicyEngine.validate`, with `Date.now()` passed in as `now`. The method
mutates `postsInLastHour` (window pruning), so it returns the verdict together
with the updated state. -/
def validate (cfg : PolicyConfig) (st : PolicyState) (decision : Decision)
    (context : ValidateContext) (now : Int) : PolicyVerdict × PolicyState :=
  if decision.action = .ignore then
    (.allowed, st)
  else if decision.confidence < cfg.confidenceThreshold then
    (.notAllowed "confidence below threshold", st)
  else
    let oneHourAgo : Int := now - 60 * 60 * 1000
    let st := { st with
      postsInLastHour := st.postsInLastHour.filter (fun t => oneHourAgo < t) }
    if decision.action = .post then
      if cfg.maxPostsPerHour ≤ st.postsInLastHour.length then
        (.notAllowed "max posts per hour exceeded", st)
      else if strTruthy decision.content ∧
          cfg.maxContentLength < (decision.content.getD "").length then
        (.notAllowed "content too long", st)
      else if strTruthy decision.content ∧
          isRepetition st (decision.content.getD "") then
        (.notAllowed "repetition detected", st)
      else if strTruthy context.submoltId &&
          (match alGet st.lastPostBySubmolt (context.submoltId.getD "") with
           | some last =>
             decide (now - last < (cfg.cooldownMinutesPerSubmolt : Int) * 60 * 1000)
           | none => false) then
        (.notAllowed "submolt cooldown", st)
      else
        (.allowed, st)
    else if decision.action = .comment then
      let threadId : Option String := context.threadId.or decision.targetId
      if strTruthy threadId ∧
          cfg.maxCommentsPerThread ≤
            (alGet st.commentsByThread (threadId.getD "")).getD 0 then
        (.notAllowed "max comments per thread exceeded", st)
      else if strTruthy decision.content ∧
          cfg.maxContentLength < (decision.content.getD "").length then
        (.notAllowed "content too long", st)
      else if strTruthy decision.content ∧
          isRepetition st (decision.content.getD "") then
        (.notAllowed "repetition detected", st)
      else
        (.allowed, st)
    else if decision.action = .vote then
      if ¬ strTruthy decision.targetId ∨ decision.voteDirection = none then
        (.notAllowed "vote requires targetId and voteDirection", st)
      else
        (.allowed, st)
    else
      (.allowed, st)

/-- The `context` argument of `PolicyEngine.recordAction`. -/
structure RecordContext where
  submoltId : Option String := none
  threadId : Option String := none
  content : Option String := none
  deriving DecidableEq, Repr

/-- `recordAction` only accepts these two actions. -/
inductive RecordKind
  | post | comment
  deriving DecidableEq, Repr

/-- `PolicyEngine.recordAction`, with `Date.now()` passed in as `now`. -/
def recordAction (st : PolicyState) (action : RecordKind)
    (context : RecordContext) (now : Int) : PolicyState :=
  match action with
  | .post =>
    let st := { st with postsInLastHour := st.postsInLastHour ++ [now] }
    let st :=
      if strTruthy context.submoltId then
        let key := context.submoltId.getD ""
        { st with lastPostBySubmolt := alSet st.lastPostBySubmolt key now }
      else st
    if strTruthy context.content then addContentHash st (context.content.getD "")
    else st
  | .comment =>
    let st :=
      if strTruthy context.threadId then
        let key := context.threadId.getD ""
        let count := (alGet st.commentsByThread key).getD 0
        { st with commentsByThread := alSet st.commentsByThread key (count + 1) }
      else st
    if strTruthy context.content then addContentHash st (context.content.getD "")
    else st

/-! ## Durable memory (src/memory/store.ts)

`Date` values that the store keeps as ISO-8601 strings but that the scheduler
converts back with `new Date(x).getTime()` (`lastPostAt`) are modelled directly
as epoch milliseconds (`Int`); the ISO round-trip is lossless at millisecond
precision. Purely informational ISO strings (`at`, `claimedAt`, `lastTickAt`)
stay opaque `String`s. -/

/-- `outcome` field of a stored decision. -/
inductive Outcome
  | executed | blocked | skipped
  deriving DecidableEq, Repr

/-- The `context` recorded with a stored decision. -/
structure StoredContext where
  submoltId : Option String := none
  threadId : Option String := none
  deriving DecidableEq, Repr

/-- `StoredDecision` from src/memory/store.ts (`at` is a Lean keyword, so
that field is spelled `atIso`). -/
structure StoredDecision where
  atIso : String
  context : StoredContext
  decision : Decision
  outcome : Option Outcome := none
  deriving DecidableEq, Repr

/-- `source` field of `LastTickSummary`. -/
inductive TickSource
  | feed | submolts | global
  deriving DecidableEq, Repr

/-- `LastTickSummary` from src/memory/store.ts (`at` spelled `atIso`). -/
structure LastTickSummary where
  atIso : String
  source : TickSource
  feedOrSubmoltCount : ℕ
  newPostsProcessed : ℕ
  dmActivity : Option Bool := none
  dmPendingRequests : Option ℕ := none
  dmUnread : Option ℕ := none
  deriving DecidableEq, Repr

/-- `MemoryState` from src/memory/store.ts. -/
structure MemoryState where
  lastSeenThreadIds : List String := []
  lastSeenCommentIds : List String := []
  agentPostIds : List String := []
  agentCommentIds : List String := []
  recentDecisions : List StoredDecision := []
  agentId : Option String := none
  claimedAt : Option String := none
  firstPostAttempted : Option Bool := none
  recentPostContentHashes : List Int := []
  lastTickAt : Option String := none
  lastTickSummary : Option LastTickSummary := none
  lastPostAt : Option Int := none
  deriving DecidableEq, Repr

/-- `MAX_LAST_SEEN` constant. -/
def MAX_LAST_SEEN : ℕ := 500

/-- `MAX_AGENT_IDS` constant. -/
def MAX_AGENT_IDS : ℕ := 200

/-- `MAX_RECENT_DECISIONS` constant. -/
def MAX_RECENT_DECISIONS : ℕ := 100

/-- `MAX_RECENT_POST_HASHES` constant. -/
def MAX_RECENT_POST_HASHES : ℕ := 100

/-- A `MemoryStore` instance: its private `state` and `dirty` flag. -/
structure MemoryStore where
  state : MemoryState := {}
  dirty : Bool := false
  deriving DecidableEq, Repr

/-- A freshly constructed `MemoryStore` (constructor runs no I/O). -/
def MemoryStore.new : MemoryStore := {}

/-- The parsed backing document, `Partial<MemoryState>`: every field may be
missing (JSON fields absent from the file parse to `undefined`). -/
structure MemDoc where
  lastSeenThreadIds : Option (List String) := none
  lastSeenCommentIds : Option (List String) := none
  agentPostIds : Option (List String) := none
  agentCommentIds : Option (List String) := none
  recentDecisions : Option (List StoredDecision) := none
  agentId : Option String := none
  claimedAt : Option String := none
  firstPostAttempted : Option Bool := none
  recentPostContentHashes : Option (List Int) := none
  lastTickAt : Option String := none
  lastTickSummary : Option LastTickSummary := none
  lastPostAt : Option Int := none
  deriving DecidableEq, Repr

/-- What `readFile` + `JSON.parse` produced inside `load()`: the file is
absent (`ENOENT`), or reading/parsing threw some other error (carried as its
message), or a document was parsed. -/
inductive ReadOutcome
  | absent
  | failure (e : String)
  | ok (doc : MemDoc)
  deriving Repr

/-- `MemoryStore.load`: `ENOENT` is swallowed (the default state stands);
every other error is rethrown; a parsed document is merged field-by-field
with defaults for missing fields. -/
def MemoryStore.load (m : MemoryStore) (r : ReadOutcome) :
    Except String MemoryStore :=
  match r with
  | .absent => .ok m
  | .failure e => .error e
  | .ok data =>
    .ok { m with state :=
      { lastSeenThreadIds := data.lastSeenThreadIds.getD []
        lastSeenCommentIds := data.lastSeenCommentIds.getD []
        agentPostIds := data.agentPostIds.getD []
        agentCommentIds := data.agentCommentIds.getD []
        recentDecisions := data.recentDecisions.getD []
        agentId := data.agentId
        claimedAt := data.claimedAt
        firstPostAttempted := some (data.firstPostAttempted.getD false)
        recentPostContentHashes := data.recentPostContentHashes.getD []
        lastTickAt := data.lastTickAt
        lastTickSummary := data.lastTickSummary
        lastPostAt := data.lastPostAt } }

/-- `JSON.stringify` of the state: every field of the document is present
exactly as stored (`undefined` optionals are omitted from the file, i.e. stay
`none` after the next parse; strings and arrays round-trip losslessly). -/
def MemoryState.toDoc (s : MemoryState) : MemDoc :=
  { lastSeenThreadIds := some s.lastSeenThreadIds
    lastSeenCommentIds := some s.lastSeenCommentIds
    agentPostIds := some s.agentPostIds
    agentCommentIds := some s.agentCommentIds
    recentDecisions := some s.recentDecisions
    agentId := s.agentId
    claimedAt := s.claimedAt
    firstPostAttempted := s.firstPostAttempted
    recentPostContentHashes := some s.recentPostContentHashes
    lastTickAt := s.lastTickAt
    lastTickSummary := s.lastTickSummary
    lastPostAt := s.lastPostAt }

/-- `MemoryStore.save`: a no-op when not dirty, else it writes the serialized
state and clears the dirty flag. Returns the written document (`none` when no
write happened) with the updated store. -/
def MemoryStore.save (m : MemoryStore) : Option MemDoc × MemoryStore :=
  if m.dirty then (some m.state.toDoc, { m with dirty := false })
  else (none, m)

/-- Result shape of `MemoryStore.getContext`. -/
structure MemoryContext where
  recentDecisions : List StoredDecision
  agentPostIds : List String
  agentCommentIds : List String
  recentAgentMemory : List String
  deriving DecidableEq, Repr

/-- Rendering of one memory line inside `getContext` (template literal; number
and enum rendering is abbreviated — no claim inspects the text). -/
def renderMemoryLine (d : StoredDecision) : String :=
  let ctx :=
    if strTruthy d.context.threadId then
      "thread=" ++ d.context.threadId.getD ""
    else
      "submolt=" ++ d.context.submoltId.getD "?"
  let outcome :=
    match d.outcome with
    | some .executed => "executed"
    | some .blocked => "blocked"
    | some .skipped => "skipped"
    | none => "-"
  "[" ++ d.atIso ++ "] " ++ toString (repr d.decision.action) ++ " " ++ ctx ++
    " conf=" ++ toString d.decision.confidence ++ " " ++ outcome

/-- `MemoryStore.getContext`. -/
def MemoryStore.getContext (m : MemoryStore) : MemoryContext :=
  let recent := m.state.recentDecisions.drop
    (m.state.recentDecisions.length - 20)
  { recentDecisions := recent
    agentPostIds := m.state.agentPostIds
    agentCommentIds := m.state.agentCommentIds
    recentAgentMemory := recent.map renderMemoryLine }

/-- `MemoryStore.markThreadSeen`. -/
def MemoryStore.markThreadSeen (m : MemoryStore) (threadId : String) :
    MemoryStore :=
  if threadId ∈ m.state.lastSeenThreadIds then m
  else
    let ids := m.state.lastSeenThreadIds ++ [threadId]
    let ids :=
      if MAX_LAST_SEEN < ids.length then ids.drop (ids.length - MAX_LAST_SEEN)
      else ids
    { state := { m.state with lastSeenThreadIds := ids }, dirty := true }

/-- `MemoryStore.markCommentSeen`. -/
def MemoryStore.markCommentSeen (m : MemoryStore) (commentId : String) :
    MemoryStore :=
  if commentId ∈ m.state.lastSeenCommentIds then m
  else
    let ids := m.state.lastSeenCommentIds ++ [commentId]
    let ids :=
      if MAX_LAST_SEEN < ids.length then ids.drop (ids.length - MAX_LAST_SEEN)
      else ids
    { state := { m.state with lastSeenCommentIds := ids }, dirty := true }

/-- `MemoryStore.isThreadSeen`. -/
def MemoryStore.isThreadSeen (m : MemoryStore) (threadId : String) : Bool :=
  threadId ∈ m.state.lastSeenThreadIds

/-- `MemoryStore.isCommentSeen`. -/
def MemoryStore.isCommentSeen (m : MemoryStore) (commentId : String) : Bool :=
  commentId ∈ m.state.lastSeenCommentIds

/-- `MemoryStore.addAgentPostId`. -/
def MemoryStore.addAgentPostId (m : MemoryStore) (id : String) : MemoryStore :=
  let ids := m.state.agentPostIds ++ [id]
  let ids :=
    if MAX_AGENT_IDS < ids.length then ids.drop (ids.length - MAX_AGENT_IDS)
    else ids
  { state := { m.state with agentPostIds := ids }, dirty := true }

/-- `MemoryStore.addAgentCommentId`. -/
def MemoryStore.addAgentCommentId (m : MemoryStore) (id : String) :
    MemoryStore :=
  let ids := m.state.agentCommentIds ++ [id]
  let ids :=
    if MAX_AGENT_IDS < ids.length then ids.drop (ids.length - MAX_AGENT_IDS)
    else ids
  { state := { m.state with agentCommentIds := ids }, dirty := true }

/-- `MemoryStore.isClaimed`: JS `Boolean(agentId)` truthiness. -/
def MemoryStore.isClaimed (m : MemoryStore) : Bool :=
  strTruthy m.state.agentId

/-- Static `MemoryStore.contentHash`: normalize title and content separately,
join with a newline, then rolling-hash the joined text. -/
def contentHash (title content : String) : Int :=
  hashChars (normalizeStr title ++ '\n' :: normalizeStr content)

/-- `MemoryStore.addAgentPostContent`. -/
def MemoryStore.addAgentPostContent (m : MemoryStore)
    (title content : String) : MemoryStore :=
  let hashes := m.state.recentPostContentHashes ++ [contentHash title content]
  let hashes :=
    if MAX_RECENT_POST_HASHES < hashes.length then
      hashes.drop (hashes.length - MAX_RECENT_POST_HASHES)
    else hashes
  { state := { m.state with recentPostContentHashes := hashes }
    dirty := true }

/-- `MemoryStore.isDuplicatePost`. -/
def MemoryStore.isDuplicatePost (m : MemoryStore) (title content : String) :
    Bool :=
  intMem (contentHash title content) m.state.recentPostContentHashes

/-- `MemoryStore.getLastPostAt`. -/
def MemoryStore.getLastPostAt (m : MemoryStore) : Option Int :=
  m.state.lastPostAt

/-- `MemoryStore.setLastPostAt`. -/
def MemoryStore.setLastPostAt (m : MemoryStore) (t : Int) : MemoryStore :=
  { state := { m.state with lastPostAt := some t }, dirty := true }

/-! ## Decision schema (zod `DecisionSchema`, src/types/decision.ts) -/

/-- Raw oracle output as `JSON.parse` yields it, restricted to the fields the
schema names: a field is `none` when absent. Values of the wrong JSON type are
rejected by zod before the checks modelled here, so present fields already
carry their JS value; the remaining schema checks are the two enum parses and
the confidence range. -/
structure RawDecision where
  action : String
  targetId : Option String := none
  title : Option String := none
  content : Option String := none
  voteDirection : Option String := none
  confidence : ℚ
  deriving DecidableEq, Repr

/-- zod `z.enum(["post", "comment", "vote", "ignore"])`. -/
def parseAction (s : String) : Option DecisionAction :=
  if s = "post" then some .post
  else if s = "comment" then some .comment
  else if s = "vote" then some .vote
  else if s = "ignore" then some .ignore
  else none

/-- zod `z.enum(["up", "down"])`. -/
def parseVoteDirection (s : String) : Option VoteDirection :=
  if s = "up" then some .up
  else if s = "down" then some .down
  else none

/-- `DecisionSchema.parse`: `some` on acceptance, `none` on a zod failure. -/
def decisionSchemaParse (r : RawDecision) : Option Decision :=
  match parseAction r.action with
  | none => none
  | some a =>
    match (match r.voteDirection with
           | none => some none
           | some s => (parseVoteDirection s).map some) with
    | none => none
    | some vd =>
      if 0 ≤ r.confidence ∧ r.confidence ≤ 1 then
        some { action := a
               targetId := r.targetId
               title := r.title
               content := r.content
               voteDirection := vd
               confidence := r.confidence }
      else none

/-! ## Scheduler (src/scheduler/loop.ts) -/

/-- `SchedulerConfig`. -/
structure SchedulerConfig where
  tickIntervalMinutes : ℕ
  postIntervalMinutes : ℕ
  dryRun : Bool
  usePersonalizedFeed : Option Bool := none
  deriving DecidableEq, Repr

/-- Outcomes of the external calls one `decideAndExecute` invocation can
make: the oracle decision (`none` = `llm.decideAction` threw), and the three
platform writes (`Except.error` = the awaited call threw). -/
structure ExecEnv where
  llm : Option Decision := none
  postPost : Except String String := .error "unavailable"
  postComment : Except String String := .error "unavailable"
  vote : Except String Unit := .error "unavailable"
  deriving Repr

/-- `decision.title ?? (decision.content.slice(0, 80) || "Post")` (only
evaluated when `decision.content` is truthy). -/
def jsTitleFallback (decision : Decision) : String :=
  match decision.title with
  | some t => t
  | none =>
    let s := String.mk ((decision.content.getD "").data.take 80)
    if s = "" then "Post" else s

/-- Everything one `Scheduler.decideAndExecute` call produces: its return
value, the updated policy and memory state, and the list of
`policy.recordAction` invocations it made, in order. -/
structure DAEOut where
  result : Option (Decision × Outcome)
  policy : PolicyState
  memory : MemoryStore
  records : List (RecordKind × RecordContext)
  deriving Repr

/-- The nested ternary mapping `decision.action` to the `actionSource` tag
inside `decideAndExecute`. -/
def toActionSource : DecisionAction → ActionSource
  | .post => .post
  | .comment => .comment
  | .vote => .vote
  | .ignore => .ignore

/-- `Scheduler.decideAndExecute`, with every `Date.now()` of the call modelled
as the same instant `now`. Mirrors the source order: oracle call, policy
validate, post-only duplicate and platform-rate-limit gates, ignore
short-circuit, dry-run short-circuit, then execution with
`policy.recordAction` only after a platform write returned. -/
def decideAndExecute (cfg : PolicyConfig) (policy : PolicyState)
    (memory : MemoryStore) (sched : SchedulerConfig) (env : ExecEnv)
    (postId submoltName : String) (now : Int) : DAEOut :=
  match env.llm with
  | none => ⟨none, policy, memory, []⟩
  | some decision =>
    let vp := validate cfg policy decision
      { submoltId := some submoltName, threadId := some postId,
        actionSource := toActionSource decision.action } now
    let policy := vp.2
    match vp.1 with
    | .notAllowed _ => ⟨some (decision, .blocked), policy, memory, []⟩
    | .allowed =>
      let postGateBlocked : Bool :=
        if decision.action = .post ∧ strTruthy decision.content then
          let content := decision.content.getD ""
          let title := jsTitleFallback decision
          if memory.isDuplicatePost title content then true
          else
            match memory.getLastPostAt with
            | some lastPostAt =>
              decide (now - lastPostAt <
                (sched.postIntervalMinutes : Int) * 60 * 1000)
            | none => false
        else false
      if postGateBlocked then ⟨some (decision, .blocked), policy, memory, []⟩
      else if decision.action = .ignore then
        ⟨some (decision, .skipped), policy, memory, []⟩
      else if sched.dryRun then
        ⟨some (decision, .skipped), policy, memory, []⟩
      else if decision.action = .post ∧ strTruthy decision.content then
        let content := decision.content.getD ""
        let title := jsTitleFallback decision
        match env.postPost with
        | .error _ => ⟨some (decision, .blocked), policy, memory, []⟩
        | .ok newPostId =>
          let memory := memory.addAgentPostId newPostId
          let memory := memory.addAgentPostContent title content
          let memory := memory.setLastPostAt now
          let rctx : RecordContext :=
            { submoltId := some submoltName, content := some content }
          let policy := recordAction policy .post rctx now
          ⟨some (decision, .executed), policy, memory, [(.post, rctx)]⟩
      else if decision.action = .comment ∧ strTruthy decision.content then
        let content := decision.content.getD ""
        let targetPostId := decision.targetId.getD postId
        match env.postComment with
        | .error _ => ⟨some (decision, .blocked), policy, memory, []⟩
        | .ok newCommentId =>
          let memory := memory.addAgentCommentId newCommentId
          let rctx : RecordContext :=
            { threadId := some targetPostId, content := some content }
          let policy := recordAction policy .comment rctx now
          ⟨some (decision, .executed), policy, memory, [(.comment, rctx)]⟩
      else if decision.action = .vote ∧ strTruthy decision.targetId ∧
          decision.voteDirection ≠ none then
        match env.vote with
        | .error _ => ⟨some (decision, .blocked), policy, memory, []⟩
        | .ok _ => ⟨some (decision, .executed), policy, memory, []⟩
      else
        ⟨some (decision, .executed), policy, memory, []⟩

/-! ## Tick-timer concurrency skeleton (src/scheduler/loop.ts)

`start()` runs one tick immediately and arms `setInterval(tick, intervalMs)`;
`stop()` clears the interval and the `running` flag. The async `tick()` body
begins with `if (!this.running) return` and has no other guard; in particular
nothing in the source consults whether a previous tick body is still awaiting
its I/O when the interval timer fires again. The states and steps below are
exactly those observable events: `ticksInFlight` counts tick bodies that have
been entered (past the `running` guard) and have not yet completed. -/

/-- The Scheduler's concurrency-relevant fields plus the count of in-flight
tick bodies. -/
structure SchedTimerState where
  running : Bool := false
  intervalSet : Bool := false
  ticksInFlight : ℕ := 0
  deriving DecidableEq, Repr

/-- Event-loop steps of the scheduler. `timerFire` carries no hypothesis
about `ticksInFlight` because `setInterval` fires on schedule regardless of
tick duration and `tick()` checks only `this.running`. -/
inductive SchedStep : SchedTimerState → SchedTimerState → Prop
  | start (s : SchedTimerState) (h : s.intervalSet = false) :
      SchedStep s { running := true, intervalSet := true,
                    ticksInFlight := s.ticksInFlight + 1 }
  | timerFire (s : SchedTimerState) (h : s.intervalSet = true)
      (hr : s.running = true) :
      SchedStep s { s with ticksInFlight := s.ticksInFlight + 1 }
  | timerFireStopped (s : SchedTimerState) (h : s.intervalSet = true)
      (hr : s.running = false) :
      SchedStep s s
  | tickDone (s : SchedTimerState) (h : 0 < s.ticksInFlight) :
      SchedStep s { s with ticksInFlight := s.ticksInFlight - 1 }
  | stop (s : SchedTimerState) :
      SchedStep s { s with running := false, intervalSet := false }

/-- States reachable from the freshly constructed scheduler. -/
def SchedReachable (s : SchedTimerState) : Prop :=
  Relation.ReflTransGen SchedStep {} s

/-! ## Shared helper lemmas -/

/-- An element just pushed at the back is found by `intMem`. -/
lemma intMem_append_last (l : List Int) (h : Int) :
    intMem h (l ++ [h]) = true := by
  induction l with
  | nil => simp [intMem]
  | cons x rest ih =>
    simp only [List.cons_append, intMem]
    split <;> simp [ih]

/-- Dropping only from the front of a pushed list keeps the pushed element. -/
lemma intMem_drop_append_last (l : List Int) (h : Int) (n : ℕ)
    (hn : n ≤ l.length) : intMem h ((l ++ [h]).drop n) = true := by
  rw [List.drop_append_of_le_length hn]
  exact intMem_append_last _ _

/-- The hash pushed by `addContentHash` survives its own FIFO eviction. -/
lemma addContentHash_mem (st : PolicyState) (c : String) :
    intMem (simpleHash c) (addContentHash st c).recentContentHashes = true := by
  unfold addContentHash
  simp only
  split
  · next hlen =>
    apply intMem_drop_append_last
    simp only [List.length_append, List.length_singleton, maxRecentHashes]
      at hlen ⊢
    omega
  · exact intMem_append_last _ _

/-- `recordAction` with truthy content records the content's hash. -/
lemma recordAction_hash_mem (st : PolicyState) (kind : RecordKind)
    (rctx : RecordContext) (t : Int) (C : String)
    (hC : rctx.content = some C) (hne : C ≠ "") :
    intMem (simpleHash C) (recordAction st kind rctx t).recentContentHashes
      = true := by
  have htr : strTruthy (some C) = true := by simp [strTruthy, hne]
  cases kind
  · unfold recordAction
    simp only [hC, htr, if_true, Option.getD_some]
    exact addContentHash_mem _ _
  · unfold recordAction
    simp only [hC, htr, if_true, Option.getD_some]
    exact addContentHash_mem _ _

/-- `alGet` after `alSet` at the same key. -/
lemma alGet_alSet {β : Type} (m : List (String × β)) (k : String) (v : β) :
    alGet (alSet m k v) k = some v := by
  induction m with
  | nil => simp [alGet, alSet]
  | cons p rest ih =>
    obtain ⟨k0, v0⟩ := p
    by_cases h : k0 = k <;> simp [alGet, alSet, h, ih]

/-! ## Claim theorems -/

/-- C1: a decision with `action = ignore` is always allowed; any other decision
with confidence strictly below the threshold (default 6/10) is rejected with
reason "confidence below threshold" with the policy state untouched, before any
other rule runs, regardless of all other fields of the decision and context. -/
theorem validate_confidence_gate (cfg : PolicyConfig) (st : PolicyState)
    (d : Decision) (ctx : ValidateContext) (now : Int) :
    (d.action = .ignore → validate cfg st d ctx now = (.allowed, st))
    ∧ (d.action ≠ .ignore → d.confidence < cfg.confidenceThreshold →
        validate cfg st d ctx now =
          (.notAllowed "confidence below threshold", st))
    ∧ DEFAULT_CONFIG.confidenceThreshold = 6 / 10 := by
  refine ⟨fun hig => ?_, fun hni hconf => ?_, ?_⟩
  · unfold validate
    simp [hig]
  · unfold validate
    simp [hni, hconf]
  · norm_num [DEFAULT_CONFIG, Rat.mkRat_eq_div]

/-- C1 witness: an ignore decision is allowed; a post at confidence 1/2 with
every other field populated is rejected for confidence alone. -/
theorem validate_confidence_gate_witness :
    validate DEFAULT_CONFIG {}
      { action := .ignore, confidence := 0 } { actionSource := .ignore } 0 =
      (.allowed, {})
    ∧ validate DEFAULT_CONFIG { commentsByThread := [("t1", 3)] }
      { action := .post, targetId := some "t1", title := some "T",
        content := some "body", voteDirection := some .up,
        confidence := mkRat 1 2 }
      { submoltId := some "general", threadId := some "t1",
        actionSource := .post } 99 =
      (.notAllowed "confidence below threshold",
        { commentsByThread := [("t1", 3)] }) :=
  ⟨(validate_confidence_gate _ _ _ _ _).1 rfl,
   (validate_confidence_gate _ _ _ _ _).2.1 (by decide)
     (by unfold DEFAULT_CONFIG; norm_num)⟩

/-- C6: loading from an absent backing file is not an error and leaves the
default empty state, after which `getContext` reports empty lists and
`isClaimed` is false; any read failure other than file-absent (a non-ENOENT
read error or malformed JSON) is propagated to the caller. -/
theorem load_absent_default_failure_propagates :
    MemoryStore.new.load .absent = .ok MemoryStore.new
    ∧ MemoryStore.new.getContext =
        { recentDecisions := [], agentPostIds := [], agentCommentIds := [],
          recentAgentMemory := [] }
    ∧ MemoryStore.new.isClaimed = false
    ∧ ∀ (m : MemoryStore) (e : String), m.load (.failure e) = .error e := by
  refine ⟨rfl, rfl, rfl, fun m e => rfl⟩

/-- C3 evaluation: in the scheduler's own event model, a state with two
concurrently in-flight tick bodies is reachable from the initial state —
`start()` runs the first tick, and the interval timer may fire again while it
is still awaiting, with nothing in `tick()` but the `running` flag guarding
entry. -/
theorem tick_overlap_reachable :
    ∃ s : SchedTimerState,
      SchedReachable s ∧ s.ticksInFlight = 2 ∧ s.running = true := by
  refine ⟨{ running := true, intervalSet := true, ticksInFlight := 2 },
    ?_, rfl, rfl⟩
  have h1 : SchedStep {}
      { running := true, intervalSet := true, ticksInFlight := 1 } :=
    SchedStep.start {} rfl
  have h2 : SchedStep
      { running := true, intervalSet := true, ticksInFlight := 1 }
      { running := true, intervalSet := true, ticksInFlight := 2 } :=
    SchedStep.timerFire _ rfl rfl
  exact Relation.ReflTransGen.tail (Relation.ReflTransGen.single h1) h2

/-- C7 counterexample: `validate` resolves the thread as
`context.threadId ?? decision.targetId` — the opposite order from the claim.
With `targetId = "t1"` (0 recorded comments) and `context.threadId = "t2"`
(3 recorded comments, the default cap), the claim predicts an allowed verdict
while the code rejects for the thread cap. -/
theorem comment_resolution_counterexample :
    (validate DEFAULT_CONFIG { commentsByThread := [("t2", 3)] }
      { action := .comment, targetId := some "t1", content := some "hi",
        confidence := mkRat 8 10 }
      { threadId := some "t2", actionSource := .comment } 0).1 =
      .notAllowed "max comments per thread exceeded"
    ∧ (alGet ({ commentsByThread := [("t2", 3)] } :
        PolicyState).commentsByThread "t1").getD 0 = 0 := by
  decide

/-- C7 as amended: for a comment decision at or above the confidence
threshold, `validate` resolves the thread as `context.threadId`, falling back
to `decision.targetId`; when that resolved thread already has at least
`maxCommentsPerThread` (default 3) comments recorded via `recordAction`, the
verdict is not-allowed with reason "max comments per thread exceeded"; and
`recordAction` of a comment on a thread takes its recorded count from n to
n + 1. -/
theorem validate_max_comments_resolved (cfg : PolicyConfig) (st : PolicyState)
    (d : Decision) (ctx : ValidateContext) (now : Int) (tid : String)
    (hact : d.action = .comment)
    (hconf : ¬ d.confidence < cfg.confidenceThreshold)
    (hres : ctx.threadId.or d.targetId = some tid)
    (htid : tid ≠ "")
    (hcount : cfg.maxCommentsPerThread ≤
      (alGet st.commentsByThread tid).getD 0) :
    (validate cfg st d ctx now).1 =
      .notAllowed "max comments per thread exceeded"
    ∧ (∀ (st2 : PolicyState) (rctx : RecordContext) (t : Int),
        rctx.threadId = some tid →
        alGet (recordAction st2 .comment rctx t).commentsByThread tid =
          some ((alGet st2.commentsByThread tid).getD 0 + 1))
    ∧ DEFAULT_CONFIG.maxCommentsPerThread = 3 := by
  have htr : strTruthy (some tid) = true := by simp [strTruthy, htid]
  refine ⟨?_, fun st2 rctx t hrt => ?_, rfl⟩
  · unfold validate
    simp [hact, hconf, hres, htr, hcount]
  · unfold recordAction
    simp only [hrt, htr, if_true, Option.getD_some]
    split
    · simp [addContentHash, alGet_alSet]
    · simp [alGet_alSet]

/-- C7 witness (scenario C of the spec): three recorded comments on thread
`t1`, then a comment decision targeting `t1` with no context thread is
rejected, and a fourth `recordAction` would move the count from 3 to 4. -/
theorem validate_max_comments_resolved_witness :
    (validate DEFAULT_CONFIG { commentsByThread := [("t1", 3)] }
      { action := .comment, targetId := some "t1", content := some "hi",
        confidence := mkRat 8 10 } { actionSource := .comment } 0).1 =
      .notAllowed "max comments per thread exceeded"
    ∧ alGet (recordAction { commentsByThread := [("t1", 3)] } .comment
        { threadId := some "t1" } 7).commentsByThread "t1" = some 4 := by
  have h := validate_max_comments_resolved DEFAULT_CONFIG
    { commentsByThread := [("t1", 3)] }
    { action := .comment, targetId := some "t1", content := some "hi",
      confidence := mkRat 8 10 } { actionSource := .comment } 0 "t1"
    rfl (by decide) rfl (by decide) (by decide)
  exact ⟨h.1, h.2.1 { commentsByThread := [("t1", 3)] }
    { threadId := some "t1" } 7 rfl⟩

/-- Acceptance of the zod schema depends only on the action enum, the
voteDirection enum when present, and the confidence range. -/
lemma decisionSchemaParse_isSome (r : RawDecision) :
    (decisionSchemaParse r).isSome =
      ((parseAction r.action).isSome &&
        (match r.voteDirection with
         | none => true
         | some s => (parseVoteDirection s).isSome) &&
        decide (0 ≤ r.confidence ∧ r.confidence ≤ 1)) := by
  unfold decisionSchemaParse
  rcases hA : parseAction r.action with _ | a
  · simp [hA]
  · rcases hV : r.voteDirection with _ | s
    · simp only [hA, hV]
      split <;> simp_all
    · rcases hP : parseVoteDirection s with _ | vd
      · simp [hA, hV, hP]
      · by_cases hc : 0 ≤ r.confidence ∧ r.confidence ≤ 1 <;>
          simp [hA, hV, hP, hc]

/-- C8 counterexample: the schema accepts a post decision carrying neither
title nor content, and a vote decision carrying no voteDirection, as long as
the confidence is in range — it does not reject decisions missing the fields
their action requires. -/
theorem decision_schema_counterexample :
    decisionSchemaParse { action := "post", confidence := mkRat 1 2 } =
      some { action := .post, confidence := mkRat 1 2 }
    ∧ decisionSchemaParse { action := "vote", confidence := mkRat 1 2 } =
      some { action := .vote, confidence := mkRat 1 2 } := by
  constructor <;> decide

/-- C8 as amended: schema validation of a Decision checks only that `action`
is one of the four enum values, that `voteDirection`, when present, is `up` or
`down`, and that `confidence` lies in `[0, 1]`; acceptance is independent of
the presence of `title`, `content` and `targetId`, so decisions missing their
action's fields pass the schema (a vote missing targetId or voteDirection is
instead rejected later by `PolicyEngine.validate`). -/
theorem decision_schema_checks (cfg : PolicyConfig) (r : RawDecision)
    (t2 c2 tg2 : Option String) (d : Decision) (st : PolicyState)
    (ctx : ValidateContext) (now : Int) :
    ((decisionSchemaParse r).isSome =
      ((parseAction r.action).isSome &&
        (match r.voteDirection with
         | none => true
         | some s => (parseVoteDirection s).isSome) &&
        decide (0 ≤ r.confidence ∧ r.confidence ≤ 1)))
    ∧ (decisionSchemaParse
        { r with title := t2, content := c2, targetId := tg2 }).isSome =
        (decisionSchemaParse r).isSome
    ∧ (d.action = .vote → ¬ d.confidence < cfg.confidenceThreshold →
        strTruthy d.targetId = false ∨ d.voteDirection = none →
        (validate cfg st d ctx now).1 =
          .notAllowed "vote requires targetId and voteDirection") := by
  refine ⟨decisionSchemaParse_isSome r, ?_, fun hact hconf hmiss => ?_⟩
  · rw [decisionSchemaParse_isSome, decisionSchemaParse_isSome]
  · unfold validate
    rcases hmiss with h | h <;> simp [hact, hconf, h]

/-- C8 amended-claim witness (scenario D of the spec): a vote decision with no
targetId passes the schema but is rejected by `validate`. -/
theorem decision_schema_checks_witness :
    (decisionSchemaParse { action := "vote", confidence := mkRat 9 10 }).isSome =
      true
    ∧ (validate DEFAULT_CONFIG {}
        { action := .vote, confidence := mkRat 9 10 }
        { actionSource := .vote } 0).1 =
        .notAllowed "vote requires targetId and voteDirection" :=
  ⟨by decide,
   (decision_schema_checks DEFAULT_CONFIG
      { action := "vote", confidence := mkRat 9 10 } none none none
      { action := .vote, confidence := mkRat 9 10 } {}
      { actionSource := .vote } 0).2.2 rfl (by decide) (Or.inl rfl)⟩

/-- C4: with `maxPostsPerHour = N` and N post-timestamps recorded in the last
60 minutes, a further post decision (confidence at or above threshold, no
other rule applicable) is rejected with "max posts per hour exceeded"; at a
later instant at which the first recorded post is more than 60 minutes old
(the rest still inside the window), the same decision is allowed, because
timestamps older than 60 minutes are discarded before counting; and
`recordAction` of a post appends the current time to the window. -/
theorem validate_posts_per_hour_window (cfg : PolicyConfig) (st : PolicyState)
    (d : Decision) (ctx : ValidateContext) (now now2 t1 : Int)
    (rest : List Int)
    (hts : st.postsInLastHour = t1 :: rest)
    (hN : st.postsInLastHour.length = cfg.maxPostsPerHour)
    (hact : d.action = .post)
    (hconf : ¬ d.confidence < cfg.confidenceThreshold)
    (hcontent : strTruthy d.content = false)
    (hsub : strTruthy ctx.submoltId = false)
    (hwin : ∀ t ∈ st.postsInLastHour, now - 60 * 60 * 1000 < t)
    (hold : 60 * 60 * 1000 < now2 - t1)
    (hrest : ∀ t ∈ rest, now2 - 60 * 60 * 1000 < t) :
    (validate cfg st d ctx now).1 = .notAllowed "max posts per hour exceeded"
    ∧ (validate cfg st d ctx now2).1 = .allowed
    ∧ ∀ (st2 : PolicyState) (rctx : RecordContext) (t : Int),
        (recordAction st2 .post rctx t).postsInLastHour =
          st2.postsInLastHour ++ [t] := by
  refine ⟨?_, ?_, fun st2 rctx t => ?_⟩
  · unfold validate
    have hfil : st.postsInLastHour.filter
        (fun t => decide (now - 3600000 < t)) = st.postsInLastHour :=
      List.filter_eq_self.mpr
        (fun a ha => decide_eq_true (by have := hwin a ha; omega))
    simp [hact, hconf, hfil, hN]
  · unfold validate
    have h1 : decide (now2 - 3600000 < t1) = false := by
      simp only [decide_eq_false_iff_not, not_lt]
      omega
    have hfil : st.postsInLastHour.filter
        (fun t => decide (now2 - 3600000 < t)) = rest := by
      rw [hts, List.filter_cons]
      simp only [h1, Bool.false_eq_true, if_false]
      exact List.filter_eq_self.mpr
        (fun a ha => decide_eq_true (by have := hrest a ha; omega))
    have hlt : ¬ cfg.maxPostsPerHour ≤ rest.length := by
      rw [hts] at hN
      simp only [List.length_cons] at hN
      omega
    simp [hact, hconf, hfil, hcontent, hsub, hlt]
  · unfold recordAction
    dsimp only
    split <;> split <;> simp [addContentHash]

/-- C4 witness: cap 2, posts at 10 and 3600000 ms; at 3600005 both are inside
the window and a post is rejected; at 3700000 the first has expired and the
same post is allowed; recording a post at 42 appends 42 to the window. -/
theorem validate_posts_per_hour_window_witness :
    (validate
      { maxPostsPerHour := 2, maxCommentsPerThread := 3,
        confidenceThreshold := mkRat 6 10, maxContentLength := 2000,
        cooldownMinutesPerSubmolt := 10 }
      { postsInLastHour := [10, 3600000] }
      { action := .post, confidence := mkRat 9 10 }
      { actionSource := .post } 3600005).1 =
      .notAllowed "max posts per hour exceeded"
    ∧ (validate
      { maxPostsPerHour := 2, maxCommentsPerThread := 3,
        confidenceThreshold := mkRat 6 10, maxContentLength := 2000,
        cooldownMinutesPerSubmolt := 10 }
      { postsInLastHour := [10, 3600000] }
      { action := .post, confidence := mkRat 9 10 }
      { actionSource := .post } 3700000).1 = .allowed
    ∧ (recordAction {} .post {} 42).postsInLastHour = [42] := by
  have h := validate_posts_per_hour_window
    { maxPostsPerHour := 2, maxCommentsPerThread := 3,
      confidenceThreshold := mkRat 6 10, maxContentLength := 2000,
      cooldownMinutesPerSubmolt := 10 }
    { postsInLastHour := [10, 3600000] }
    { action := .post, confidence := mkRat 9 10 }
    { actionSource := .post } 3600005 3700000 10 [3600000]
    rfl rfl rfl (by decide) rfl rfl (by decide) (by decide) (by decide)
  exact ⟨h.1, h.2.1, h.2.2 {} {} 42⟩

/-- One interleaved `markThreadSeen` / `markCommentSeen` call of a sequence:
`true` marks a thread id, `false` a comment id. -/
def applyMark (m : MemoryStore) (e : Bool × String) : MemoryStore :=
  if e.1 then m.markThreadSeen e.2 else m.markCommentSeen e.2

/-- `markThreadSeen` keeps the thread seen-list within the cap. -/
lemma markThreadSeen_len (m : MemoryStore) (id : String)
    (h : m.state.lastSeenThreadIds.length ≤ MAX_LAST_SEEN) :
    (m.markThreadSeen id).state.lastSeenThreadIds.length ≤ MAX_LAST_SEEN := by
  unfold MemoryStore.markThreadSeen
  split
  · exact h
  · dsimp only
    split <;>
      · simp only [MAX_LAST_SEEN, List.length_drop, List.length_append,
          List.length_singleton] at *
        omega

/-- `markCommentSeen` keeps the comment seen-list within the cap. -/
lemma markCommentSeen_len (m : MemoryStore) (id : String)
    (h : m.state.lastSeenCommentIds.length ≤ MAX_LAST_SEEN) :
    (m.markCommentSeen id).state.lastSeenCommentIds.length ≤ MAX_LAST_SEEN := by
  unfold MemoryStore.markCommentSeen
  split
  · exact h
  · dsimp only
    split <;>
      · simp only [MAX_LAST_SEEN, List.length_drop, List.length_append,
          List.length_singleton] at *
        omega

/-- `markThreadSeen` never touches the comment seen-list. -/
lemma markThreadSeen_comments (m : MemoryStore) (id : String) :
    (m.markThreadSeen id).state.lastSeenCommentIds =
      m.state.lastSeenCommentIds := by
  unfold MemoryStore.markThreadSeen
  split <;> rfl

/-- `markCommentSeen` never touches the thread seen-list. -/
lemma markCommentSeen_threads (m : MemoryStore) (id : String) :
    (m.markCommentSeen id).state.lastSeenThreadIds =
      m.state.lastSeenThreadIds := by
  unfold MemoryStore.markCommentSeen
  split <;> rfl

/-- C5: under every interleaved sequence of `markThreadSeen` /
`markCommentSeen` calls both seen-lists stay within the cap of 500; a single
mark of an unseen id keeps a suffix of the push-ordered list (the
most-recently-added ids, the oldest evicted first) of length
`min (n + 1) 500`; and marking an id that is already seen returns the store
unchanged in size and content. -/
theorem mark_seen_cap_fifo_idem (m : MemoryStore) (seq : List (Bool × String))
    (hT : m.state.lastSeenThreadIds.length ≤ MAX_LAST_SEEN)
    (hC : m.state.lastSeenCommentIds.length ≤ MAX_LAST_SEEN) :
    ((seq.foldl applyMark m).state.lastSeenThreadIds.length ≤ MAX_LAST_SEEN ∧
      (seq.foldl applyMark m).state.lastSeenCommentIds.length ≤ MAX_LAST_SEEN)
    ∧ (∀ id, id ∉ m.state.lastSeenThreadIds →
        List.IsSuffix (m.markThreadSeen id).state.lastSeenThreadIds
          (m.state.lastSeenThreadIds ++ [id]) ∧
        (m.markThreadSeen id).state.lastSeenThreadIds.length =
          min (m.state.lastSeenThreadIds.length + 1) MAX_LAST_SEEN)
    ∧ (∀ id, id ∉ m.state.lastSeenCommentIds →
        List.IsSuffix (m.markCommentSeen id).state.lastSeenCommentIds
          (m.state.lastSeenCommentIds ++ [id]) ∧
        (m.markCommentSeen id).state.lastSeenCommentIds.length =
          min (m.state.lastSeenCommentIds.length + 1) MAX_LAST_SEEN)
    ∧ (∀ id, id ∈ m.state.lastSeenThreadIds → m.markThreadSeen id = m)
    ∧ (∀ id, id ∈ m.state.lastSeenCommentIds → m.markCommentSeen id = m) := by
  refine ⟨?_, fun id hid => ?_, fun id hid => ?_,
    fun id hid => ?_, fun id hid => ?_⟩
  · induction seq generalizing m with
    | nil => exact ⟨hT, hC⟩
    | cons e rest ih =>
      rcases e with ⟨b, id⟩
      simp only [List.foldl_cons]
      cases b
      · have h1 : applyMark m (false, id) = m.markCommentSeen id := by
          simp [applyMark]
        rw [h1]
        exact ih (m.markCommentSeen id)
          (by rw [markCommentSeen_threads]; exact hT)
          (markCommentSeen_len m id hC)
      · have h1 : applyMark m (true, id) = m.markThreadSeen id := by
          simp [applyMark]
        rw [h1]
        exact ih (m.markThreadSeen id)
          (markThreadSeen_len m id hT)
          (by rw [markThreadSeen_comments]; exact hC)
  · unfold MemoryStore.markThreadSeen
    split
    · exact absurd (by assumption) hid
    · dsimp only
      constructor
      · split
        · exact List.drop_suffix _ _
        · exact List.suffix_refl _
      · split <;>
          · simp only [MAX_LAST_SEEN, List.length_drop, List.length_append,
              List.length_singleton] at *
            omega
  · unfold MemoryStore.markCommentSeen
    split
    · exact absurd (by assumption) hid
    · dsimp only
      constructor
      · split
        · exact List.drop_suffix _ _
        · exact List.suffix_refl _
      · split <;>
          · simp only [MAX_LAST_SEEN, List.length_drop, List.length_append,
              List.length_singleton] at *
            omega
  · unfold MemoryStore.markThreadSeen
    split
    · rfl
    · exact absurd hid (by assumption)
  · unfold MemoryStore.markCommentSeen
    split
    · rfl
    · exact absurd hid (by assumption)

/-- C5 witness: from the empty store, marking thread "a", comment "b" and
thread "a" again stays within the cap; a fresh mark of "z" is a capped
suffix push; re-marking "a" is the identity. -/
theorem mark_seen_cap_fifo_idem_witness :
    ((([(true, "a"), (false, "b"), (true, "a")] :
        List (Bool × String)).foldl applyMark
        MemoryStore.new).state.lastSeenThreadIds.length ≤ MAX_LAST_SEEN ∧
      (([(true, "a"), (false, "b"), (true, "a")] :
        List (Bool × String)).foldl applyMark
        MemoryStore.new).state.lastSeenCommentIds.length ≤ MAX_LAST_SEEN)
    ∧ (MemoryStore.new.markThreadSeen "a").markThreadSeen "a" =
        MemoryStore.new.markThreadSeen "a" := by
  have h := mark_seen_cap_fifo_idem MemoryStore.new
    [(true, "a"), (false, "b"), (true, "a")] (by decide) (by decide)
  refine ⟨h.1, ?_⟩
  have h2 := mark_seen_cap_fifo_idem (MemoryStore.new.markThreadSeen "a")
    [] (by decide) (by decide)
  exact h2.2.2.2.1 "a" (by decide)

/-- C9: after `addAgentPostContent(title, content)`, `save()` actually writes
(the mutation set the dirty flag) and serializes the state; a freshly
constructed store that loads the written document reports
`isDuplicatePost(title, content)` — the duplicate-post fingerprint
round-trips through persistence across a restart. -/
theorem duplicate_post_round_trip (m : MemoryStore) (title content : String) :
    (m.addAgentPostContent title content).save.1 =
      some (m.addAgentPostContent title content).state.toDoc
    ∧ (MemoryStore.new.load
        (.ok (m.addAgentPostContent title content).state.toDoc)).map
        (fun m2 => m2.isDuplicatePost title content) = .ok true := by
  constructor
  · simp [MemoryStore.addAgentPostContent, MemoryStore.save]
  · simp only [MemoryStore.load, MemoryState.toDoc, Except.map,
      Option.getD_some, MemoryStore.isDuplicatePost, Except.ok.injEq]
    unfold MemoryStore.addAgentPostContent
    dsimp only
    split
    · next hlen =>
      apply intMem_drop_append_last
      simp only [List.length_append, List.length_singleton,
        MAX_RECENT_POST_HASHES] at hlen ⊢
      omega
    · exact intMem_append_last _ _

/-- Pruning the sliding post window inside `validate` leaves the recorded
content hashes untouched. -/
lemma isRepetition_prune (st : PolicyState) (l : List Int) (c : String) :
    isRepetition { st with postsInLastHour := l } c = isRepetition st c := rfl

/-- C10: once `recordAction` has recorded content C (for a post or a
comment), validating a new post or comment decision whose content normalizes
to the same text as C — it differs only in letter case and whitespace — is
rejected with "repetition detected", provided the confidence is at or above
the threshold and no earlier rule fires (posts: hourly cap and length;
comments: per-thread cap and length). -/
theorem validate_repetition_detected (cfg : PolicyConfig) (st : PolicyState)
    (kind : RecordKind) (rctx : RecordContext) (tR : Int) (C : String)
    (d : Decision) (ctx : ValidateContext) (now : Int) (c : String)
    (hC : rctx.content = some C) (hCne : C ≠ "")
    (hcontent : d.content = some c) (hcne : c ≠ "")
    (hnorm : normalizeStr c = normalizeStr C)
    (hconf : ¬ d.confidence < cfg.confidenceThreshold)
    (hlen : c.length ≤ cfg.maxContentLength)
    (hact : d.action = .post ∨ d.action = .comment)
    (hwin : d.action = .post →
      ((recordAction st kind rctx tR).postsInLastHour.filter
        (fun t => decide (now - 3600000 < t))).length < cfg.maxPostsPerHour)
    (hthr : d.action = .comment → ∀ tid,
      ctx.threadId.or d.targetId = some tid → tid ≠ "" →
      (alGet (recordAction st kind rctx tR).commentsByThread tid).getD 0 <
        cfg.maxCommentsPerThread) :
    (validate cfg (recordAction st kind rctx tR) d ctx now).1 =
      .notAllowed "repetition detected" := by
  have hct : strTruthy d.content = true := by simp [strTruthy, hcontent, hcne]
  have hhash : simpleHash c = simpleHash C := by
    simp [simpleHash, hnorm]
  have hrep : ∀ l, isRepetition
      { recordAction st kind rctx tR with postsInLastHour := l } c = true := by
    intro l
    rw [isRepetition_prune]
    unfold isRepetition
    rw [hhash]
    exact recordAction_hash_mem st kind rctx tR C hC hCne
  have hlen2 : ¬ cfg.maxContentLength < ((d.content.getD "").length) := by
    rw [hcontent]
    simpa using hlen
  have hlt : ¬ cfg.maxContentLength < c.length := Nat.not_lt.mpr hlen
  rcases hact with hP | hCm
  · unfold validate
    have hw := hwin hP
    simp [hP, hconf, hct, hlen2, Nat.not_le.mpr hw, hcontent, hrep, hlt,
      strTruthy, hcne]
  · unfold validate
    have hth0 : ¬ (strTruthy (ctx.threadId.or d.targetId) = true ∧
        cfg.maxCommentsPerThread ≤
          (alGet (recordAction st kind rctx tR).commentsByThread
            ((ctx.threadId.or d.targetId).getD "")).getD 0) := by
      rintro ⟨htru, hle⟩
      rcases hres : ctx.threadId.or d.targetId with _ | tid
      · rw [hres] at htru
        simp [strTruthy] at htru
      · rw [hres] at htru hle
        have htid : tid ≠ "" := by simpa [strTruthy] using htru
        have := hthr hCm tid hres htid
        simp only [Option.getD_some] at hle
        omega
    have hsc : strTruthy (some c) = true := by simp [strTruthy, hcne]
    simp [hCm, hconf, hct, hlen2, hcontent, hrep, hth0, hlt, hsc]

/-- C10 witness: record a comment with content "Some  Content", then validate
a comment whose content "some content" differs only in case and whitespace —
rejected as repetition. -/
theorem validate_repetition_detected_witness :
    (validate DEFAULT_CONFIG
      (recordAction {} .comment
        { threadId := some "t0", content := some "Some  Content" } 0)
      { action := .comment, targetId := some "t9",
        content := some "some content", confidence := mkRat 8 10 }
      { actionSource := .comment } 5).1 = .notAllowed "repetition detected" :=
  validate_repetition_detected DEFAULT_CONFIG {} .comment
    { threadId := some "t0", content := some "Some  Content" } 0
    "Some  Content"
    { action := .comment, targetId := some "t9",
      content := some "some content", confidence := mkRat 8 10 }
    { actionSource := .comment } 5 "some content"
    rfl (by decide) rfl (by decide) (by decide) (by decide) (by decide)
    (Or.inr rfl)
    (fun h => DecisionAction.noConfusion h)
    (by intro _ tid htid _
        injection htid with h
        subst h
        decide)

/-- The input state with only its sliding post window pruned to the last 60
minutes — the sole state change `validate` itself performs. -/
def prunedWindow (p0 : PolicyState) (now : Int) : PolicyState :=
  { p0 with postsInLastHour :=
      p0.postsInLastHour.filter (fun t => decide (now - 60 * 60 * 1000 < t)) }

/-- The state returned by `validate` is either the input state (ignore and
confidence short-circuits) or the input state with only its sliding post
window pruned — `validate` never grows any counter. -/
lemma validate_snd (cfg : PolicyConfig) (st : PolicyState) (d : Decision)
    (ctx : ValidateContext) (now : Int) :
    (validate cfg st d ctx now).2 = st ∨
    (validate cfg st d ctx now).2 = prunedWindow st now := by
  unfold validate
  split
  · exact Or.inl rfl
  · split
    · exact Or.inl rfl
    · right
      dsimp only
      repeat' split
      all_goals rfl

/-- The record-call accounting a single `decideAndExecute` invocation obeys:
no `recordAction` call unless the outcome is executed; exactly one call for an
executed content-bearing post or comment and zero calls otherwise (in
particular zero for executed votes); and whenever no call was made the policy
counters are unchanged except for sliding-window pruning. -/
def RecordsAccounted (out : DAEOut) (policy : PolicyState) (now : Int) :
    Prop :=
  (∀ d o, out.result = some (d, o) → o ≠ .executed → out.records = [])
  ∧ (out.result = none → out.records = [])
  ∧ (∀ d, out.result = some (d, .executed) →
      out.records.length =
        if (d.action = .post ∨ d.action = .comment) ∧
            strTruthy d.content = true then 1 else 0)
  ∧ out.records.length ≤ 1
  ∧ (out.records = [] →
      out.policy = policy ∨ out.policy = prunedWindow policy now)

/-- Accounting holds at a leaf with a non-executed outcome and no records. -/
lemma accounted_nonexec (d : Decision) (o : Outcome) (p p0 : PolicyState)
    (mem : MemoryStore) (now : Int) (ho : o ≠ .executed)
    (hp : p = p0 ∨ p = prunedWindow p0 now) :
    RecordsAccounted ⟨some (d, o), p, mem, []⟩ p0 now := by
  refine ⟨fun _ _ _ _ => rfl, fun h => rfl, fun d2 h => ?_, by simp,
    fun _ => hp⟩
  injection h with h2
  injection h2 with _ h3
  exact absurd h3 ho

/-- Accounting holds at the oracle-failure leaf. -/
lemma accounted_none (p0 : PolicyState) (mem : MemoryStore) (now : Int) :
    RecordsAccounted ⟨none, p0, mem, []⟩ p0 now := by
  refine ⟨fun _ _ h => absurd h (by simp), fun _ => rfl, fun d2 h => ?_,
    by simp, fun _ => Or.inl rfl⟩
  exact absurd h (by simp)

/-- Accounting holds at an executed leaf that made exactly one record call. -/
lemma accounted_exec_one (d : Decision) (p p0 : PolicyState)
    (mem : MemoryStore) (r : RecordKind × RecordContext) (now : Int)
    (hcond : (d.action = .post ∨ d.action = .comment) ∧
      strTruthy d.content = true) :
    RecordsAccounted ⟨some (d, .executed), p, mem, [r]⟩ p0 now := by
  refine ⟨fun d2 o2 h hne => ?_, fun h => absurd h (by simp), fun d2 h => ?_,
    by simp, fun h => absurd h (by simp)⟩
  · injection h with h2
    injection h2 with _ h3
    exact absurd h3.symm hne
  · injection h with h2
    injection h2 with h3 _
    subst h3
    simp [hcond]

/-- Accounting holds at an executed leaf that made no record call. -/
lemma accounted_exec_zero (d : Decision) (p p0 : PolicyState)
    (mem : MemoryStore) (now : Int)
    (hncond : ¬ ((d.action = .post ∨ d.action = .comment) ∧
      strTruthy d.content = true))
    (hp : p = p0 ∨ p = prunedWindow p0 now) :
    RecordsAccounted ⟨some (d, .executed), p, mem, []⟩ p0 now := by
  refine ⟨fun d2 o2 h hne => ?_, fun h => absurd h (by simp), fun d2 h => ?_,
    by simp, fun _ => hp⟩
  · injection h with h2
    injection h2 with h3 h4
    exact rfl
  · injection h with h2
    injection h2 with h3 _
    subst h3
    simp [hncond]

/-- C2 as amended: in every environment (oracle outcome, platform outcomes,
dry-run flag, memory and policy state), one `decideAndExecute` call makes no
`recordAction` call when its outcome is blocked or skipped (policy rejection,
duplicate or rate-limit block, ignore decision, dry-run, platform-call
failure) or when the oracle failed; it makes exactly one call when a
content-bearing post or comment actually executed, and zero calls for any
other executed decision — executed votes update no counters; and whenever it
makes no call the policy counters are unchanged up to sliding-window
pruning. -/
theorem record_action_accounting (cfg : PolicyConfig) (policy : PolicyState)
    (memory : MemoryStore) (sched : SchedulerConfig) (env : ExecEnv)
    (postId submoltName : String) (now : Int) :
    RecordsAccounted
      (decideAndExecute cfg policy memory sched env postId submoltName now)
      policy now := by
  unfold decideAndExecute
  rcases env.llm with _ | d
  · exact accounted_none policy memory now
  · dsimp only
    repeat' split
    all_goals first
      | exact accounted_nonexec d .blocked _ policy memory now (by simp)
          (validate_snd cfg policy d _ now)
      | exact accounted_nonexec d .skipped _ policy memory now (by simp)
          (validate_snd cfg policy d _ now)
      | exact accounted_exec_one d _ _ _ _ now (by simp_all)
      | exact accounted_exec_one d _ _ _ _ now (by tauto)
      | exact accounted_exec_zero d _ policy memory now (by tauto)
          (validate_snd cfg policy d _ now)

/-- C2 amended-claim witness: an executed content-bearing comment makes
exactly one `recordAction` call. -/
theorem record_action_accounting_witness :
    (decideAndExecute DEFAULT_CONFIG {} MemoryStore.new
      { tickIntervalMinutes := 30, postIntervalMinutes := 30,
        dryRun := false }
      { llm := some { action := .comment, targetId := some "p1",
                      content := some "hi", confidence := mkRat 9 10 },
        postComment := .ok "c1" } "p1" "general" 0).records.length = 1 := by
  have h := (record_action_accounting DEFAULT_CONFIG {} MemoryStore.new
    { tickIntervalMinutes := 30, postIntervalMinutes := 30, dryRun := false }
    { llm := some { action := .comment, targetId := some "p1",
                    content := some "hi", confidence := mkRat 9 10 },
      postComment := .ok "c1" } "p1" "general" 0).2.2.1
    { action := .comment, targetId := some "p1", content := some "hi",
      confidence := mkRat 9 10 } (by decide)
  rw [if_pos (by decide)] at h
  exact h

/-- C2 counterexample: a vote decision that passes policy and actually
executes on the platform yields outcome `executed` with zero `recordAction`
calls, contradicting "exactly once per action that actually executed". -/
theorem record_action_vote_counterexample :
    (decideAndExecute DEFAULT_CONFIG {} MemoryStore.new
      { tickIntervalMinutes := 30, postIntervalMinutes := 30,
        dryRun := false }
      { llm := some { action := .vote, targetId := some "p1",
                      voteDirection := some .up, confidence := mkRat 9 10 },
        vote := .ok () } "p1" "general" 0).result =
      some ({ action := .vote, targetId := some "p1",
              voteDirection := some .up, confidence := mkRat 9 10 },
            .executed)
    ∧ (decideAndExecute DEFAULT_CONFIG {} MemoryStore.new
      { tickIntervalMinutes := 30, postIntervalMinutes := 30,
        dryRun := false }
      { llm := some { action := .vote, targetId := some "p1",
                      voteDirection := some .up, confidence := mkRat 9 10 },
        vote := .ok () } "p1" "general" 0).records = [] := by
  constructor <;> decide

end MoltbookGPT
